import Mathlib

/-!
Shallow embedding of the color and bounding-box core of the `pilutils` library
(`pilutils/basic.py` and `pilutils/parse.py`), together with theorems settling
the specification's claims about it.

Modelling conventions:
* Python integers are `ℤ`; RGB colors are integer triples.
* Functions that raise exceptions return `Option`/`Except`.
* Python `//` (floor division), `%` and `>>` appear in the source only with
  positive divisors/moduli, where they coincide with `Int`'s Euclidean `/`
  and `%`, which are used throughout.
* Python dicts (the named palettes) are insertion-ordered association lists;
  `dict.update` overwrites the value of an existing key in place and appends
  new keys at the end, exactly as CPython does.
* `align_bbox`'s `align` parameter is a Python number: the code distinguishes
  `int` from `float` via `isinstance`, so it is modelled as a tagged union.
-/

namespace Pilutils

/-- An RGB color: a triple of Python integers (in-range triples have each
component in `[0, 255]`). -/
abbrev RGB := ℤ × ℤ × ℤ

/-- A palette: a name → hex-string mapping, modelled as an insertion-ordered
association list (CPython dicts iterate in insertion order). -/
abbrev Palette := List (String × String)

/-- `basic.hex_to_rgb`: convert a 6-digit hexadecimal RGB number to an RGB
tuple; raises (here: `none`) when the number is outside `[0, 0xFFFFFF]`.
On the validated non-negative number, `rgb >> 16`, `(rgb >> 8) % 256` and
`rgb % 256` are floor division and Euclidean remainder. -/
def hex_to_rgb (rgb : ℤ) : Option RGB :=
  if 0 ≤ rgb ∧ rgb ≤ 0xFFFFFF then
    some (rgb / 65536, rgb / 256 % 256, rgb % 256)
  else none

/-- `basic.rgb_to_hex`: convert an RGB tuple into a 6-digit hexadecimal RGB
number; raises (here: `none`) unless every component is an integer in
`[0, 256)`.  On the validated operands the bit patterns of
`r << 16 | g << 8 | b` are disjoint, so the expression equals the weighted
sum `r * 2^16 + g * 2^8 + b`. -/
def rgb_to_hex (rgb : RGB) : Option ℤ :=
  if 0 ≤ rgb.1 ∧ rgb.1 < 256 ∧ 0 ≤ rgb.2.1 ∧ rgb.2.1 < 256 ∧
      0 ≤ rgb.2.2 ∧ rgb.2.2 < 256 then
    some (rgb.1 * 65536 + rgb.2.1 * 256 + rgb.2.2)
  else none

/-- A Python number as passed to `align_bbox`'s `align` parameter: the code
checks `isinstance(align, int)`, so the `int`/`float` distinction is
observable. Float values are modelled by the rationals they denote. -/
inductive PyNum where
  | int (n : ℤ)
  | float (q : ℚ)
deriving DecidableEq

/-- Numeric value of a Python number (Python compares `int` and `float`
numerically). -/
def PyNum.toRat : PyNum → ℚ
  | .int n => (n : ℚ)
  | .float q => q

/-- `isinstance(·, int)`. -/
def PyNum.isInt : PyNum → Bool
  | .int _ => true
  | .float _ => false

/-- The distinguishable failures of `align_bbox` (the source raises
`ValueError` with distinct messages; the spec names them `SizeMismatchError`
and `InvalidAlignmentError`). `boxUndefined` models the `NameError` Python
would raise if no alignment branch assigned `box`; it is unreachable. -/
inductive AlignError where
  | sizeMismatch
  | invalidAlignment
  | boxUndefined
deriving DecidableEq

/-- The nine-way `if align == k: box = …` chain of `basic.align_bbox`,
computing `box` from the shrunk frame `(fx0, fy0, fx1, fy1)`, its
dimensions `(fw, fh)` and the box size `(bw, bh)`.  `none` models `box`
never being assigned (unreachable after the validation).  Python `//` is
floor division, which agrees with Euclidean `/` on the divisor 2. -/
def alignDispatch (a : ℚ) (fx0 fy0 fx1 fy1 fw fh bw bh : ℤ) :
    Option (ℤ × ℤ × ℤ × ℤ) :=
  if a = 1 then
    some (fx0, fy1 - bh, fx0 + bw, fy1)
  else if a = 2 then
    some (fx0 + ((fw - bw) / 2), fy1 - bh,
      fx0 + ((fw - bw) / 2) + bw, fy1)
  else if a = 3 then
    some (fx1 - bw, fy1 - bh, fx1, fy1)
  else if a = 4 then
    some (fx0, fy0 + ((fh - bh) / 2), fx0 + bw,
      fy0 + ((fh - bh) / 2) + bh)
  else if a = 5 then
    some (fx0 + ((fw - bw) / 2), fy0 + ((fh - bh) / 2),
      fx0 + ((fw - bw) / 2) + bw, fy0 + ((fh - bh) / 2) + bh)
  else if a = 6 then
    some (fx1 - bw, fy0 + ((fh - bh) / 2), fx1,
      fy0 + ((fh - bh) / 2) + bh)
  else if a = 7 then
    some (fx0, fy0, fx0 + bw, fy0 + bh)
  else if a = 8 then
    some (fx0 + ((fw - bw) / 2), fy0,
      fx0 + ((fw - bw) / 2) + bw, fy0 + bh)
  else if a = 9 then
    some (fx1 - bw, fy0, fx1, fy0 + bh)
  else none

/-- `basic.align_bbox`: align a box of size `size` inside `frame` shrunk by
`margin`, according to the numpad alignment code `align`.  Returns the list
`[x0, y0, x1, y1]` of the placed box, or `[x0, y0]` when `topleft_only`.
Faithful to the source's order of checks: the size check (suppressible by
`suppress_wrong_size`) runs before the alignment validation. -/
def align_bbox (frame : ℤ × ℤ × ℤ × ℤ) (size : ℤ × ℤ) (align : PyNum)
    (margin : ℤ) (topleft_only suppress_wrong_size : Bool) :
    Except AlignError (List ℤ) :=
  if ((frame.2.2.1 - margin) - (frame.1 + margin) < size.1 ∨
      (frame.2.2.2 - margin) - (frame.2.1 + margin) < size.2) ∧
      suppress_wrong_size = false then
    .error .sizeMismatch
  else if ¬(0 < align.toRat ∧ align.toRat < 10) ∨ align.isInt = false then
    .error .invalidAlignment
  else
    match alignDispatch align.toRat (frame.1 + margin) (frame.2.1 + margin)
      (frame.2.2.1 - margin) (frame.2.2.2 - margin)
      ((frame.2.2.1 - margin) - (frame.1 + margin))
      ((frame.2.2.2 - margin) - (frame.2.1 + margin)) size.1 size.2 with
    | none => .error .boxUndefined
    | some (x0, y0, x1, y1) =>
      .ok (if topleft_only then [x0, y0] else [x0, y0, x1, y1])

/-! ### `parse.py`: the format-specific color-string parsers

Each parser raises `ValueError` on mismatch; here each returns `Option`.
Regular expressions are unrolled by hand over the character list of the
stripped input (Python `str.strip` removes surrounding whitespace).
Since a maximal digit run followed by a mandatory non-digit is matched,
a bounded quantifier such as `\d{1,3}` succeeds exactly when the maximal
run has an admissible length. -/

/-- Python `str.strip()`: remove leading and trailing whitespace (over the
character list of the string). -/
def pyStrip (cs : List Char) : List Char :=
  ((cs.dropWhile Char.isWhitespace).reverse.dropWhile Char.isWhitespace).reverse

/-- Python `str.lower()` (character-wise lower-casing). -/
def pyLower (s : String) : String :=
  String.mk (s.toList.map Char.toLower)

/-- `[0-9A-Fa-f]`. -/
def isHexDigit (c : Char) : Bool :=
  c.isDigit || ('a' ≤ c && c ≤ 'f') || ('A' ≤ c && c ≤ 'F')

/-- Value of a single hexadecimal digit. -/
def hexVal (c : Char) : ℕ :=
  if c.isDigit then c.toNat - 48
  else if 'a' ≤ c then c.toNat - 87
  else c.toNat - 55

/-- `int(s, 16)` on a string of hex digits. -/
def hexToNat (ds : List Char) : ℕ :=
  ds.foldl (fun a c => a * 16 + hexVal c) 0

/-- `int(s)` on a string of decimal digits. -/
def digitsToNat (ds : List Char) : ℕ :=
  ds.foldl (fun a c => a * 10 + (c.toNat - 48)) 0

/-- Strip an optional leading `#` (the `#?` of the hex regexes). -/
def dropHash : List Char → List Char
  | '#' :: cs => cs
  | cs => cs

/-- `parse.parse_hex6`: `^#?([0-9A-Fa-f]{6})$` on the stripped input, then
`hex_to_rgb(int(group, 16))` (always in range, being below `16^6`). -/
def parse_hex6 (hex6 : String) : Option RGB :=
  let ds := dropHash (pyStrip hex6.toList)
  if ds.length = 6 ∧ ds.all isHexDigit then
    hex_to_rgb (hexToNat ds : ℕ)
  else none

/-- `parse.parse_hex3`: `^#?([0-9A-Fa-f]{3})$` on the stripped input; each
digit is doubled (`int(c * 2, 16) = 17 * value`). -/
def parse_hex3 (hex3 : String) : Option RGB :=
  let ds := dropHash (pyStrip hex3.toList)
  match ds with
  | [a, b, c] =>
    if isHexDigit a && isHexDigit b && isHexDigit c then
      some ((17 * hexVal a : ℕ), (17 * hexVal b : ℕ), (17 * hexVal c : ℕ))
    else none
  | _ => none

/-- `\s*`. -/
def dropWS (cs : List Char) : List Char :=
  cs.dropWhile Char.isWhitespace

/-- Consume one expected character. -/
def expectChar (c : Char) : List Char → Option (List Char)
  | x :: rest => if x = c then some rest else none
  | [] => none

/-- `(\d{1,3})`: a maximal digit run of length 1 to 3, returned as its
integer value together with the remaining input. -/
def takeInt3 (cs : List Char) : Option (ℕ × List Char) :=
  let ds := cs.takeWhile Char.isDigit
  if 1 ≤ ds.length ∧ ds.length ≤ 3 then
    some (digitsToNat ds, cs.dropWhile Char.isDigit)
  else none

/-- An exact non-negative decimal number, as the fraction `num / 10 ^ pow`
(a decimal literal `d.d₁…dₖ` denotes exactly such a fraction). -/
structure DecFrac where
  num : ℕ
  pow : ℕ
deriving DecidableEq

/-- `([01]\.\d+)`: a float literal `0.…` or `1.…`, returned as the exact
decimal fraction it denotes together with the remaining input. -/
def takeFloat01 (cs : List Char) : Option (DecFrac × List Char) :=
  match cs with
  | d :: '.' :: rest =>
    if d = '0' ∨ d = '1' then
      let ds := rest.takeWhile Char.isDigit
      if 1 ≤ ds.length then
        some (⟨(if d = '1' then 1 else 0) * 10 ^ ds.length + digitsToNat ds,
          ds.length⟩, rest.dropWhile Char.isDigit)
      else none
    else none
  | _ => none

/-- `(\d{1,3}(?:\.\d+)?)`: a percentage number with optional fractional
part, as the exact decimal fraction it denotes. -/
def takePercentNum (cs : List Char) : Option (DecFrac × List Char) :=
  (takeInt3 cs).bind fun iw =>
    match iw.2 with
    | '.' :: rest =>
      let ds := rest.takeWhile Char.isDigit
      if 1 ≤ ds.length then
        some (⟨iw.1 * 10 ^ ds.length + digitsToNat ds, ds.length⟩,
          rest.dropWhile Char.isDigit)
      else none
    | r => some (⟨iw.1, 0⟩, r)

/-- Python 3 `round` on the exact non-negative value `a / b`: round half to
even. -/
def pyRound (a b : ℕ) : ℕ :=
  if 2 * (a % b) < b then a / b
  else if b < 2 * (a % b) then a / b + 1
  else if a / b % 2 = 0 then a / b else a / b + 1

/-- `parse.parse_rgbfunc_int`:
`^rgb\(\s*(\d{1,3})\s*,\s*(\d{1,3})\s*,\s*(\d{1,3})\s*\)$` on the stripped
input; fails if any component exceeds 255. -/
def parse_rgbfunc_int (rgbfunc : String) : Option RGB :=
  match pyStrip rgbfunc.toList with
  | 'r' :: 'g' :: 'b' :: '(' :: rest =>
    (takeInt3 (dropWS rest)).bind fun aw =>
    (expectChar ',' (dropWS aw.2)).bind fun r2 =>
    (takeInt3 (dropWS r2)).bind fun bw =>
    (expectChar ',' (dropWS bw.2)).bind fun r4 =>
    (takeInt3 (dropWS r4)).bind fun cw =>
    (expectChar ')' (dropWS cw.2)).bind fun r6 =>
    if r6 = [] ∧ ¬(255 < aw.1 ∨ 255 < bw.1 ∨ 255 < cw.1) then
      some ((aw.1 : ℕ), (bw.1 : ℕ), (cw.1 : ℕ))
    else none
  | _ => none

/-- `parse.parse_rgbfunc_float`:
`^rgb\(\s*([01]\.\d+)\s*,\s*([01]\.\d+)\s*,\s*([01]\.\d+)\s*\)$` on the
stripped input; fails if any component exceeds 1, else each component is
`int(round(n * 255))`.  Decimal literals are modelled by the exact
rationals they denote. -/
def parse_rgbfunc_float (rgbfunc : String) : Option RGB :=
  match pyStrip rgbfunc.toList with
  | 'r' :: 'g' :: 'b' :: '(' :: rest =>
    (takeFloat01 (dropWS rest)).bind fun aw =>
    (expectChar ',' (dropWS aw.2)).bind fun r2 =>
    (takeFloat01 (dropWS r2)).bind fun bw =>
    (expectChar ',' (dropWS bw.2)).bind fun r4 =>
    (takeFloat01 (dropWS r4)).bind fun cw =>
    (expectChar ')' (dropWS cw.2)).bind fun r6 =>
    if r6 = [] ∧ ¬(10 ^ aw.1.pow < aw.1.num ∨ 10 ^ bw.1.pow < bw.1.num ∨
        10 ^ cw.1.pow < cw.1.num) then
      some ((pyRound (aw.1.num * 255) (10 ^ aw.1.pow) : ℕ),
        (pyRound (bw.1.num * 255) (10 ^ bw.1.pow) : ℕ),
        (pyRound (cw.1.num * 255) (10 ^ cw.1.pow) : ℕ))
    else none
  | _ => none

/-- `parse.parse_rgbfunc_percent`:
`^rgb\(\s*(\d{1,3}(?:\.\d+)?)%\s*,\s*…%\s*,\s*…%\s*\)$` on the stripped
input; fails if any component exceeds 100, else each component is
`int(round(n * 255 / 100))`. -/
def parse_rgbfunc_percent (rgbfunc : String) : Option RGB :=
  match pyStrip rgbfunc.toList with
  | 'r' :: 'g' :: 'b' :: '(' :: rest =>
    (takePercentNum (dropWS rest)).bind fun aw =>
    (expectChar '%' aw.2).bind fun r1 =>
    (expectChar ',' (dropWS r1)).bind fun r2 =>
    (takePercentNum (dropWS r2)).bind fun bw =>
    (expectChar '%' bw.2).bind fun r3 =>
    (expectChar ',' (dropWS r3)).bind fun r4 =>
    (takePercentNum (dropWS r4)).bind fun cw =>
    (expectChar '%' cw.2).bind fun r5 =>
    (expectChar ')' (dropWS r5)).bind fun r6 =>
    if r6 = [] ∧ ¬(100 * 10 ^ aw.1.pow < aw.1.num ∨
        100 * 10 ^ bw.1.pow < bw.1.num ∨ 100 * 10 ^ cw.1.pow < cw.1.num) then
      some ((pyRound (aw.1.num * 255) (100 * 10 ^ aw.1.pow) : ℕ),
        (pyRound (bw.1.num * 255) (100 * 10 ^ bw.1.pow) : ℕ),
        (pyRound (cw.1.num * 255) (100 * 10 ^ cw.1.pow) : ℕ))
    else none
  | _ => none

/-- First-match lookup in an association list (a dict whose keys are unique
has at most one matching entry). -/
def lookup (pal : Palette) (k : String) : Option String :=
  (pal.find? (fun e => e.1 = k)).map (fun e => e.2)

/-- `Modelled from the spec:` the five bundled palette JSON files
(`css.json`, `crayola.json`, `xkcd.json`, `meodai-best.json`,
`meodai.json`) are read-only data resources that are not part of the
source tree; per the spec each is "a flat mapping from lowercase color
name (string) to a 6-hex-digit RGB string".  The module-level globals
`_css_names`, …, `_meodai_names` are therefore modelled as a record of
palettes passed explicitly to the functions that read them. -/
structure Palettes where
  css : Palette
  crayola : Palette
  xkcd : Palette
  meodai_best : Palette
  meodai : Palette

/-- `parse.parse_name_css`: lower-case the name, look it up in the CSS
palette (raising when absent), and parse the stored hex string. -/
def parse_name_css (P : Palettes) (name : String) : Option RGB :=
  match lookup P.css (pyLower name) with
  | none => none
  | some v => parse_hex6 v

/-- `parse.parse_name_crayola`. -/
def parse_name_crayola (P : Palettes) (name : String) : Option RGB :=
  match lookup P.crayola (pyLower name) with
  | none => none
  | some v => parse_hex6 v

/-- `parse.parse_name_xkcd`. -/
def parse_name_xkcd (P : Palettes) (name : String) : Option RGB :=
  match lookup P.xkcd (pyLower name) with
  | none => none
  | some v => parse_hex6 v

/-- `parse.parse_name_meodai_best`. -/
def parse_name_meodai_best (P : Palettes) (name : String) : Option RGB :=
  match lookup P.meodai_best (pyLower name) with
  | none => none
  | some v => parse_hex6 v

/-- `parse.parse_name_meodai`. -/
def parse_name_meodai (P : Palettes) (name : String) : Option RGB :=
  match lookup P.meodai (pyLower name) with
  | none => none
  | some v => parse_hex6 v

/-- The keyword flags of `parse.parse`, all of which default to `True` in
the source. -/
structure ParseFlags where
  hex6 : Bool
  hex3 : Bool
  rgbfunc_int : Bool
  rgbfunc_float : Bool
  rgbfunc_percent : Bool
  name_css : Bool
  name_crayola : Bool
  name_xkcd : Bool
  name_meodai_best : Bool
  name_meodai : Bool

/-- The list `funcs` built by `parse.parse`: the enabled parsers, appended
in the source's fixed priority order. -/
def enabledFuncs (P : Palettes) (fl : ParseFlags) :
    List (String → Option RGB) :=
  (if fl.hex6 then [parse_hex6] else []) ++
  (if fl.hex3 then [parse_hex3] else []) ++
  (if fl.rgbfunc_int then [parse_rgbfunc_int] else []) ++
  (if fl.rgbfunc_float then [parse_rgbfunc_float] else []) ++
  (if fl.rgbfunc_percent then [parse_rgbfunc_percent] else []) ++
  (if fl.name_css then [parse_name_css P] else []) ++
  (if fl.name_crayola then [parse_name_crayola P] else []) ++
  (if fl.name_xkcd then [parse_name_xkcd P] else []) ++
  (if fl.name_meodai_best then [parse_name_meodai_best P] else []) ++
  (if fl.name_meodai then [parse_name_meodai P] else [])

/-- `parse.parse`: run every enabled parser in order, keeping the result of
each one that succeeds (`except ValueError: pass` swallows individual
failures), so that the last success survives; `none` models the final
`NoMatchError` raised when `res` is still `None`. -/
def parse (P : Palettes) (fl : ParseFlags) (colstr : String) : Option RGB :=
  (enabledFuncs P fl).foldl
    (fun res func =>
      match func colstr with
      | some v => some v
      | none => res)
    none

/-! ### `parse.nearest_named_color` -/

/-- CPython `dict` assignment `d[k] = v` on an insertion-ordered
association list: overwrite the value of an existing key in place, append a
new key at the end. -/
def dictInsert (d : Palette) (k v : String) : Palette :=
  if d.any (fun e => e.1 = k) then
    d.map (fun e => if e.1 = k then (k, v) else e)
  else d ++ [(k, v)]

/-- CPython `d.update(other)`: insert `other`'s entries in `other`'s
iteration order. -/
def dictUpdate (d other : Palette) : Palette :=
  other.foldl (fun acc e => dictInsert acc e.1 e.2) d

/-- The `colorpool` dict built by `nearest_named_color`: the enabled
palettes merged in the source's order meodai, meodai_best, xkcd, crayola,
css (so a later palette overwrites an earlier one on a name collision). -/
def colorpool (P : Palettes)
    (css crayola xkcd meodai_best meodai : Bool) : Palette :=
  let p0 : Palette := []
  let p1 := if meodai then dictUpdate p0 P.meodai else p0
  let p2 := if meodai_best then dictUpdate p1 P.meodai_best else p1
  let p3 := if xkcd then dictUpdate p2 P.xkcd else p2
  let p4 := if crayola then dictUpdate p3 P.crayola else p3
  if css then dictUpdate p4 P.css else p4

/-- `Modelled from the spec:` `rough_color_distance` is imported by
`parse.py` from `pilutils.basic` but is absent from the sources; the spec
describes the comparison as "Euclidean distance in RGB space".  It is used
only as the key of a minimisation, so it is modelled as the squared
Euclidean distance, which compares any two colors exactly as the Euclidean
distance does. -/
def rough_color_distance (col1 col2 : RGB) : ℤ :=
  (col1.1 - col2.1) ^ 2 + (col1.2.1 - col2.2.1) ^ 2 +
    (col1.2.2 - col2.2.2) ^ 2

/-- The key on which `nearest_named_color` minimises:
`rough_color_distance(col, parse_hex6(d[1]))`.  (`parse_hex6` cannot fail
on the validated pool, see `nearest_named_color`.) -/
def nearKey (col : RGB) (e : String × String) : ℤ :=
  rough_color_distance col ((parse_hex6 e.2).getD (0, 0, 0))

/-- The loop of Python `min(items, key=f)` over the remaining items `es`
with current best `e0`: the best is replaced only on a strictly smaller
key, so the first minimum wins. -/
def pyMinFold (f : String × String → ℤ) (es : List (String × String))
    (e0 : String × String) : String × String :=
  es.foldl (fun best x => if f x < f best then x else best) e0

/-- Python `min(items, key=f)`: `none` models the `ValueError` that `min`
raises on an empty pool. -/
def minByKey (f : String × String → ℤ) : Palette → Option (String × String)
  | [] => none
  | e :: es => some (pyMinFold f es e)

/-- `parse.nearest_named_color`: merge the enabled palettes into
`colorpool` and return the entry (name and stored hex string) whose decoded
color minimises the distance to `col`.  In the source, `min` evaluates
`parse_hex6` on every entry's value and an unparsable value raises out of
the function, as does `min` on an empty pool; both become `none`. -/
def nearest_named_color (P : Palettes) (col : RGB)
    (css crayola xkcd meodai_best meodai : Bool) :
    Option (String × String) :=
  let pool := colorpool P css crayola xkcd meodai_best meodai
  if pool.all (fun e => (parse_hex6 e.2).isSome) then
    minByKey (nearKey col) pool
  else none

/-! ### Helper lemmas about `alignDispatch` -/

/-- For an integer alignment code in `[1, 9]` some dispatch branch fires. -/
theorem alignDispatch_int_isSome (n : ℤ) (h1 : 1 ≤ n) (h9 : n ≤ 9)
    (fx0 fy0 fx1 fy1 fw fh bw bh : ℤ) :
    (alignDispatch (n : ℚ) fx0 fy0 fx1 fy1 fw fh bw bh).isSome := by
  interval_cases n <;> norm_num [alignDispatch]

/-- Every box produced by the dispatch has width `bw` and height `bh`. -/
theorem alignDispatch_dims (a : ℚ) (fx0 fy0 fx1 fy1 fw fh bw bh : ℤ)
    (q : ℤ × ℤ × ℤ × ℤ)
    (h : alignDispatch a fx0 fy0 fx1 fy1 fw fh bw bh = some q) :
    q.2.2.1 = q.1 + bw ∧ q.2.2.2 = q.2.1 + bh := by
  unfold alignDispatch at h
  split_ifs at h <;> simp only [Option.some.injEq] at h <;> subst h <;>
    constructor <;> dsimp <;> ring

/-! ### Claims about `align_bbox` -/

/-- C3: with `suppress_wrong_size = True` and an integer alignment code in
`[1, 9]`, `align_bbox` never raises, for every frame, size and margin,
even when the size exceeds the shrunk frame. -/
theorem align_bbox_suppress_never_raises (frame : ℤ × ℤ × ℤ × ℤ)
    (size : ℤ × ℤ) (n : ℤ) (margin : ℤ) (tlo : Bool)
    (h1 : 1 ≤ n) (h9 : n ≤ 9) :
    ∃ l, align_bbox frame size (.int n) margin tlo true = .ok l := by
  unfold align_bbox
  rw [if_neg (by simp)]
  rw [if_neg (by
    simp only [PyNum.toRat, PyNum.isInt, not_or, not_not, Bool.true_eq_false]
    refine ⟨⟨?_, ?_⟩, by simp⟩
    · exact_mod_cast h1.trans_lt' (by norm_num)
    · exact_mod_cast h9.trans_lt (by norm_num))]
  have hs := alignDispatch_int_isSome n h1 h9 (frame.1 + margin)
    (frame.2.1 + margin) (frame.2.2.1 - margin) (frame.2.2.2 - margin)
    ((frame.2.2.1 - margin) - (frame.1 + margin))
    ((frame.2.2.2 - margin) - (frame.2.1 + margin)) size.1 size.2
  obtain ⟨⟨x0, y0, x1, y1⟩, hq⟩ := Option.isSome_iff_exists.mp hs
  simp only [PyNum.toRat]
  rw [hq]
  exact ⟨_, rfl⟩

/-- Witness for C3: a 5×5 box cannot fit the frame `(0,0,2,2)` shrunk by a
margin of 1, yet the call succeeds. -/
theorem align_bbox_suppress_never_raises_witness :
    ∃ l, align_bbox (0, 0, 2, 2) (5, 5) (.int 4) 1 false true = .ok l :=
  align_bbox_suppress_never_raises (0, 0, 2, 2) (5, 5) 4 1 false
    (by decide) (by decide)

/-- C4: when the size fits (or the size check is suppressed),
`align_bbox` raises `InvalidAlignmentError` exactly when `align` is not an
integer in `[1, 9]` — in particular for every non-integer (float) value
and for the integers 0, 10, -1 — and never for an integer in `[1, 9]`. -/
theorem align_bbox_invalid_alignment_iff (frame : ℤ × ℤ × ℤ × ℤ)
    (size : ℤ × ℤ) (align : PyNum) (margin : ℤ) (tlo swz : Bool)
    (hfit : (frame.2.2.1 - margin) - (frame.1 + margin) < size.1 ∨
      (frame.2.2.2 - margin) - (frame.2.1 + margin) < size.2 → swz = true) :
    align_bbox frame size align margin tlo swz = .error .invalidAlignment ↔
      ¬ ∃ n : ℤ, align = PyNum.int n ∧ 1 ≤ n ∧ n ≤ 9 := by
  unfold align_bbox
  rw [if_neg (by
    rintro ⟨hor, hfalse⟩
    rw [hfit hor] at hfalse
    exact absurd hfalse (by simp))]
  by_cases hc2 : ¬(0 < align.toRat ∧ align.toRat < 10) ∨ align.isInt = false
  · rw [if_pos hc2]
    simp only [true_iff, iff_true_intro rfl]
    rintro ⟨n, rfl, h1, h9⟩
    rcases hc2 with hc2 | hc2
    · refine hc2 ⟨?_, ?_⟩
      · show (0 : ℚ) < (n : ℚ)
        exact_mod_cast h1.trans_lt' (by norm_num)
      · show (n : ℚ) < 10
        exact_mod_cast h9.trans_lt (by norm_num)
    · exact absurd hc2 (by simp [PyNum.isInt])
  · rw [if_neg hc2]
    push_neg at hc2
    obtain ⟨⟨hpos, hlt⟩, hint⟩ := hc2
    obtain ⟨n, rfl⟩ : ∃ n : ℤ, align = PyNum.int n := by
      cases align with
      | int n => exact ⟨n, rfl⟩
      | float q => exact absurd hint (by simp [PyNum.isInt])
    have h0 : (0 : ℚ) < (n : ℚ) := hpos
    have h1 : 0 < n := by exact_mod_cast h0
    have h10q : (n : ℚ) < 10 := hlt
    have h10 : n < 10 := by exact_mod_cast h10q
    have hs := alignDispatch_int_isSome n (by omega) (by omega)
      (frame.1 + margin) (frame.2.1 + margin) (frame.2.2.1 - margin)
      (frame.2.2.2 - margin) ((frame.2.2.1 - margin) - (frame.1 + margin))
      ((frame.2.2.2 - margin) - (frame.2.1 + margin)) size.1 size.2
    obtain ⟨⟨x0, y0, x1, y1⟩, hq⟩ := Option.isSome_iff_exists.mp hs
    simp only [PyNum.toRat]
    rw [hq]
    apply iff_of_false
    · exact fun hcontr => absurd hcontr (by simp)
    · exact fun hno => hno ⟨n, rfl, by omega, by omega⟩

/-- Witness for C4: the integer-valued float 5.0 is not an `int`, so the
call raises `InvalidAlignmentError` even though the box fits. -/
theorem align_bbox_invalid_alignment_iff_witness :
    align_bbox (0, 0, 10, 10) (2, 2) (.float 5) 0 false false =
        .error .invalidAlignment ↔
      ¬ ∃ n : ℤ, PyNum.float 5 = PyNum.int n ∧ 1 ≤ n ∧ n ≤ 9 :=
  align_bbox_invalid_alignment_iff (0, 0, 10, 10) (2, 2) (.float 5) 0
    false false (by decide)

/-- C7: `align_bbox` with alignment 5 places the box at horizontal offset
`⌊(fw - bw) / 2⌋` and vertical offset `⌊(fh - bh) / 2⌋` from the shrunk
frame's top-left corner (Euclidean `/ 2` is floor division here), so the
slack on each axis is symmetric or off by one toward the start. -/
theorem align_bbox_center_floor (frame : ℤ × ℤ × ℤ × ℤ) (size : ℤ × ℤ)
    (margin : ℤ)
    (hw : size.1 ≤ (frame.2.2.1 - margin) - (frame.1 + margin))
    (hh : size.2 ≤ (frame.2.2.2 - margin) - (frame.2.1 + margin)) :
    ∃ x0 y0,
      align_bbox frame size (.int 5) margin false false =
        .ok [x0, y0, x0 + size.1, y0 + size.2] ∧
      x0 = (frame.1 + margin) +
        (((frame.2.2.1 - margin) - (frame.1 + margin)) - size.1) / 2 ∧
      y0 = (frame.2.1 + margin) +
        (((frame.2.2.2 - margin) - (frame.2.1 + margin)) - size.2) / 2 ∧
      x0 - (frame.1 + margin) ≤ (frame.2.2.1 - margin) - (x0 + size.1) ∧
      (frame.2.2.1 - margin) - (x0 + size.1) ≤ (x0 - (frame.1 + margin)) + 1 ∧
      y0 - (frame.2.1 + margin) ≤ (frame.2.2.2 - margin) - (y0 + size.2) ∧
      (frame.2.2.2 - margin) - (y0 + size.2) ≤ (y0 - (frame.2.1 + margin)) + 1 := by
  refine ⟨(frame.1 + margin) +
      (((frame.2.2.1 - margin) - (frame.1 + margin)) - size.1) / 2,
    (frame.2.1 + margin) +
      (((frame.2.2.2 - margin) - (frame.2.1 + margin)) - size.2) / 2,
    ?_, rfl, rfl, by omega, by omega, by omega, by omega⟩
  unfold align_bbox
  rw [if_neg (by rintro ⟨hor, -⟩; rcases hor with hlt | hlt <;> omega)]
  rw [if_neg (by norm_num [PyNum.toRat, PyNum.isInt])]
  have hd : alignDispatch (PyNum.toRat (.int 5)) (frame.1 + margin)
      (frame.2.1 + margin) (frame.2.2.1 - margin) (frame.2.2.2 - margin)
      ((frame.2.2.1 - margin) - (frame.1 + margin))
      ((frame.2.2.2 - margin) - (frame.2.1 + margin)) size.1 size.2 =
      some ((frame.1 + margin) +
          (((frame.2.2.1 - margin) - (frame.1 + margin)) - size.1) / 2,
        (frame.2.1 + margin) +
          (((frame.2.2.2 - margin) - (frame.2.1 + margin)) - size.2) / 2,
        (frame.1 + margin) +
          (((frame.2.2.1 - margin) - (frame.1 + margin)) - size.1) / 2 + size.1,
        (frame.2.1 + margin) +
          (((frame.2.2.2 - margin) - (frame.2.1 + margin)) - size.2) / 2 + size.2) := by
    norm_num [alignDispatch, PyNum.toRat]
  rw [hd]
  rfl

/-- Witness for C7: centering a 3×3 box in the 10×10 frame `(0,0,10,10)`
puts 3 pixels of slack before and 4 after on each axis. -/
theorem align_bbox_center_floor_witness :
    ∃ x0 y0,
      align_bbox (0, 0, 10, 10) (3, 3) (.int 5) 0 false false =
        .ok [x0, y0, x0 + (3 : ℤ), y0 + (3 : ℤ)] ∧
      x0 = (0 + 0) + ((10 - 0 - (0 + 0)) - 3) / 2 ∧
      y0 = (0 + 0) + ((10 - 0 - (0 + 0)) - 3) / 2 ∧
      x0 - (0 + 0) ≤ (10 - 0) - (x0 + 3) ∧
      (10 - 0) - (x0 + 3) ≤ (x0 - (0 + 0)) + 1 ∧
      y0 - (0 + 0) ≤ (10 - 0) - (y0 + 3) ∧
      (10 - 0) - (y0 + 3) ≤ (y0 - (0 + 0)) + 1 :=
  align_bbox_center_floor (0, 0, 10, 10) (3, 3) 0 (by decide) (by decide)

/-- C9: the end-to-end example: a 20×20 box aligned bottom-left
(alignment 1) in `(0,0,100,100)` with margin 5 is `(5, 75, 25, 95)`. -/
theorem align_bbox_end_to_end_example :
    align_bbox (0, 0, 100, 100) (20, 20) (.int 1) 5 false false =
      .ok [5, 75, 25, 95] := rfl

/-- C10: every 4-tuple returned by `align_bbox` (with `topleft_only`
false) has exactly the requested dimensions, for every alignment, margin
and `suppress_wrong_size`. -/
theorem align_bbox_size_exact (frame : ℤ × ℤ × ℤ × ℤ) (size : ℤ × ℤ)
    (align : PyNum) (margin : ℤ) (swz : Bool) (l : List ℤ)
    (h : align_bbox frame size align margin false swz = .ok l) :
    ∃ x0 y0, l = [x0, y0, x0 + size.1, y0 + size.2] := by
  unfold align_bbox at h
  split at h
  · exact absurd h (by simp)
  · split at h
    · exact absurd h (by simp)
    · split at h
      · exact absurd h (by simp)
      · rename_i x0 y0 x1 y1 heq
        simp only [Bool.false_eq_true, if_neg, Except.ok.injEq] at h
        subst h
        obtain ⟨h1, h2⟩ := alignDispatch_dims _ _ _ _ _ _ _ _ _ _ heq
        exact ⟨x0, y0, by simp_all⟩

/-- Witness for C10: aligning a 20×20 box bottom-right (alignment 3) in
`(0,0,100,100)` returns `(80, 80, 100, 100)`, of exactly the requested
size. -/
theorem align_bbox_size_exact_witness :
    ∃ x0 y0, ([80, 80, 100, 100] : List ℤ) =
      [x0, y0, x0 + (20 : ℤ), y0 + (20 : ℤ)] :=
  align_bbox_size_exact (0, 0, 100, 100) (20, 20) (.int 3) 0 false
    [80, 80, 100, 100] rfl

/-! ### Claims about the hex round-trip -/

/-- C8: for every RGB triple with integer components in `[0, 255]`,
`hex_to_rgb (rgb_to_hex rgb)` gives back the triple. -/
theorem hex_rgb_roundtrip (r g b : ℤ) (hr0 : 0 ≤ r) (hr1 : r ≤ 255)
    (hg0 : 0 ≤ g) (hg1 : g ≤ 255) (hb0 : 0 ≤ b) (hb1 : b ≤ 255) :
    (rgb_to_hex (r, g, b)).bind hex_to_rgb = some (r, g, b) := by
  unfold rgb_to_hex
  rw [if_pos (by dsimp; omega)]
  show hex_to_rgb (r * 65536 + g * 256 + b) = some (r, g, b)
  unfold hex_to_rgb
  rw [if_pos (by omega)]
  simp only [Option.some.injEq, Prod.mk.injEq]
  refine ⟨?_, ?_, ?_⟩ <;> omega

/-- Witness for C8 at (255, 0, 128). -/
theorem hex_rgb_roundtrip_witness :
    (rgb_to_hex (255, 0, 128)).bind hex_to_rgb = some (255, 0, 128) :=
  hex_rgb_roundtrip 255 0 128 (by decide) (by decide) (by decide)
    (by decide) (by decide) (by decide)

/-! ### Claims about the aggregating `parse` -/

/-- The fold of `parse.parse` keeps the result of the last parser that
succeeds, falling back to the accumulator when none does. -/
theorem foldl_last_success (s : String) (l : List (String → Option RGB))
    (r0 : Option RGB) :
    l.foldl (fun res func => match func s with | some v => some v | none => res) r0
      = ((l.filterMap (fun func => func s)).getLast?).or r0 := by
  induction l generalizing r0 with
  | nil => simp
  | cons f l ih =>
    rw [List.foldl_cons, ih, List.filterMap_cons]
    cases hf : f s with
    | none => rfl
    | some v =>
      cases hX : l.filterMap (fun func => func s) with
      | nil => simp
      | cons x xs =>
        obtain ⟨w, hw⟩ : ∃ w, (x :: xs).getLast? = some w := by
          cases h : (x :: xs).getLast? with
          | none => exact absurd h (by simp)
          | some w => exact ⟨w, rfl⟩
        simp [List.getLast?_cons_cons, hw]

/-- C2: whenever two or more enabled parsers succeed on the input, `parse`
returns the result of the last successful parser in the fixed priority
order (`getLast?` of the successes), not the first. -/
theorem parse_last_success_wins (P : Palettes) (fl : ParseFlags)
    (colstr : String)
    (_h : 2 ≤ ((enabledFuncs P fl).filterMap (fun func => func colstr)).length) :
    parse P fl colstr =
      ((enabledFuncs P fl).filterMap (fun func => func colstr)).getLast? := by
  rw [parse, foldl_last_success]
  exact Option.or_none

/-- Witness for C2: with "red" in both the css and the crayola palette,
both name parsers succeed and `parse` returns the later (crayola) value. -/
theorem parse_last_success_wins_witness :
    2 ≤ ((enabledFuncs ⟨[("red", "#ff0000")], [("red", "#ee0000")], [], [], []⟩
        ⟨true, true, true, true, true, true, true, true, true, true⟩).filterMap
        (fun func => func ("red"))).length ∧
    parse ⟨[("red", "#ff0000")], [("red", "#ee0000")], [], [], []⟩
        ⟨true, true, true, true, true, true, true, true, true, true⟩ ("red") =
      ((enabledFuncs ⟨[("red", "#ff0000")], [("red", "#ee0000")], [], [], []⟩
        ⟨true, true, true, true, true, true, true, true, true, true⟩).filterMap
        (fun func => func ("red"))).getLast? :=
  ⟨by decide, parse_last_success_wins _ _ ("red") (by decide)⟩

/-! ### Helper lemmas about `pyMinFold`, `minByKey` and the palette dict -/

/-- The result of Python `min`'s loop splits its input: everything strictly
before the result has a strictly larger key (so on ties the first minimum
wins), everything after has a larger-or-equal key. -/
theorem pyMinFold_split (f : String × String → ℤ) (es : List (String × String)) :
    ∀ e0 : String × String, ∃ l1 l2,
      e0 :: es = l1 ++ (pyMinFold f es e0) :: l2 ∧
      (∀ x ∈ l1, f (pyMinFold f es e0) < f x) ∧
      (∀ x ∈ l2, f (pyMinFold f es e0) ≤ f x) := by
  induction es with
  | nil => exact fun e0 => ⟨[], [], rfl, by simp, by simp⟩
  | cons x es ih =>
    intro e0
    by_cases hlt : f x < f e0
    · have hstep : pyMinFold f (x :: es) e0 = pyMinFold f es x := by
        simp [pyMinFold, hlt]
      rw [hstep]
      obtain ⟨l1', l2', heq, h1, h2⟩ := ih x
      cases l1' with
      | nil =>
        simp only [List.nil_append, List.cons.injEq] at heq
        obtain ⟨hxr, hes⟩ := heq
        refine ⟨[e0], l2', ?_, ?_, h2⟩
        · rw [List.cons_append, List.nil_append, ← hxr, ← hes]
        · intro z hz
          simp only [List.mem_singleton] at hz
          subst hz
          rw [← hxr]
          exact hlt
      | cons y t =>
        rw [List.cons_append] at heq
        simp only [List.cons.injEq] at heq
        obtain ⟨hxy, hes⟩ := heq
        refine ⟨e0 :: y :: t, l2', ?_, ?_, h2⟩
        · rw [List.cons_append, List.cons_append, ← hes, hxy]
        · intro z hz
          rcases List.mem_cons.mp hz with hz | hz
          · subst hz
            have hy := h1 y (List.mem_cons_self y t)
            rw [← hxy] at hy
            exact lt_trans hy hlt
          · exact h1 z hz
    · have hstep : pyMinFold f (x :: es) e0 = pyMinFold f es e0 := by
        simp [pyMinFold, hlt]
      rw [hstep]
      obtain ⟨l1', l2', heq, h1, h2⟩ := ih e0
      cases l1' with
      | nil =>
        simp only [List.nil_append, List.cons.injEq] at heq
        obtain ⟨he0r, hes⟩ := heq
        refine ⟨[], x :: l2', ?_, by simp, ?_⟩
        · rw [List.nil_append, ← he0r, ← hes]
        · intro z hz
          rcases List.mem_cons.mp hz with hz | hz
          · subst hz
            rw [← he0r]
            exact le_of_not_lt hlt
          · exact h2 z hz
      | cons y t =>
        rw [List.cons_append] at heq
        simp only [List.cons.injEq] at heq
        obtain ⟨he0y, hes⟩ := heq
        refine ⟨y :: x :: t, l2', ?_, ?_, h2⟩
        · rw [List.cons_append, List.cons_append, ← hes, he0y]
        · intro z hz
          rcases List.mem_cons.mp hz with hz | hz
          · subst hz
            exact h1 z (List.mem_cons_self z t)
          · rcases List.mem_cons.mp hz with hz | hz
            · subst hz
              have hy := h1 y (List.mem_cons_self y t)
              rw [← he0y] at hy
              exact lt_of_lt_of_le hy (le_of_not_lt hlt)
            · exact h1 z (List.mem_cons_of_mem y hz)

/-- `minByKey` returns a splitting element: strictly smaller than all
earlier entries' keys, no larger than all later ones'. -/
theorem minByKey_split (f : String × String → ℤ) (l : Palette)
    (e : String × String) (h : minByKey f l = some e) :
    ∃ l1 l2, l = l1 ++ e :: l2 ∧ (∀ x ∈ l1, f e < f x) ∧
      (∀ x ∈ l2, f e ≤ f x) := by
  cases l with
  | nil => simp [minByKey] at h
  | cons e0 es =>
    simp only [minByKey, Option.some.injEq] at h
    subst h
    exact pyMinFold_split f es e0

/-- `minByKey` returns a member of the list of minimal key. -/
theorem minByKey_min (f : String × String → ℤ) (l : Palette)
    (e : String × String) (h : minByKey f l = some e) :
    e ∈ l ∧ ∀ x ∈ l, f e ≤ f x := by
  obtain ⟨l1, l2, rfl, hl1, hl2⟩ := minByKey_split f l e h
  refine ⟨List.mem_append.mpr (Or.inr (List.mem_cons_self _ _)), ?_⟩
  intro x hx
  rcases List.mem_append.mp hx with hx | hx
  · exact le_of_lt (hl1 x hx)
  · rcases List.mem_cons.mp hx with hx | hx
    · subst hx
      exact le_refl _
    · exact hl2 x hx

/-- Replacing the entries of key `k` does not affect a lookup of another
key. -/
theorem find?_map_replace_ne (d : Palette) (k v k' : String) (hne : k' ≠ k) :
    (d.map (fun e => if e.1 = k then (k, v) else e)).find? (fun e => e.1 = k')
      = d.find? (fun e => e.1 = k') := by
  induction d with
  | nil => rfl
  | cons e d ih =>
    simp only [List.map_cons]
    by_cases hek : e.1 = k
    · rw [if_pos hek]
      rw [List.find?_cons_of_neg _ (by simp [Ne.symm hne]),
        List.find?_cons_of_neg _ (by simp [hek, Ne.symm hne])]
      exact ih
    · rw [if_neg hek]
      by_cases hek' : e.1 = k'
      · rw [List.find?_cons_of_pos _ (by simp [hek']),
          List.find?_cons_of_pos _ (by simp [hek'])]
      · rw [List.find?_cons_of_neg _ (by simp [hek']),
          List.find?_cons_of_neg _ (by simp [hek'])]
        exact ih

/-- After replacing the entries of key `k`, the first entry of key `k`
holds the new value. -/
theorem find?_map_replace_eq (d : Palette) (k v : String)
    (hany : d.any (fun e => e.1 = k) = true) :
    (d.map (fun e => if e.1 = k then (k, v) else e)).find? (fun e => e.1 = k)
      = some (k, v) := by
  induction d with
  | nil => simp at hany
  | cons e d ih =>
    simp only [List.map_cons]
    by_cases hek : e.1 = k
    · rw [if_pos hek]
      exact List.find?_cons_of_pos _ (by simp)
    · rw [if_neg hek]
      rw [List.find?_cons_of_neg _ (by simp [hek])]
      refine ih ?_
      simp only [List.any_cons, Bool.or_eq_true, decide_eq_true_eq] at hany
      rcases hany with h | h
      · exact absurd h hek
      · exact h

/-- `d[k] = v` makes `d[k]` resolve to `v`. -/
theorem lookup_dictInsert_eq (d : Palette) (k v : String) :
    lookup (dictInsert d k v) k = some v := by
  unfold dictInsert lookup
  by_cases hany : d.any (fun e => e.1 = k) = true
  · rw [if_pos hany, find?_map_replace_eq d k v hany]
    rfl
  · rw [if_neg hany]
    rw [List.find?_append]
    have hnone : d.find? (fun e => e.1 = k) = none := by
      rw [List.find?_eq_none]
      intro x hx hp
      exact hany (List.any_eq_true.mpr ⟨x, hx, hp⟩)
    rw [hnone]
    simp

/-- `d[k] = v` leaves every other key's lookup unchanged. -/
theorem lookup_dictInsert_ne (d : Palette) (k v k' : String) (hne : k' ≠ k) :
    lookup (dictInsert d k v) k' = lookup d k' := by
  unfold dictInsert lookup
  by_cases hany : d.any (fun e => e.1 = k) = true
  · rw [if_pos hany, find?_map_replace_ne d k v k' hne]
  · rw [if_neg hany, List.find?_append]
    have h2 : ([(k, v)] : Palette).find? (fun e => e.1 = k') = none := by
      simp [Ne.symm hne]
    rw [h2]
    simp

/-- Looking up after `d.update(other)` prefers the last matching entry of
`other` and falls back to `d`. -/
theorem lookup_dictUpdate (o : Palette) : ∀ d : Palette, ∀ k : String,
    lookup (dictUpdate d o) k =
      ((o.reverse.find? (fun e => e.1 = k)).map Prod.snd).or (lookup d k) := by
  induction o with
  | nil =>
    intro d k
    simp [dictUpdate]
  | cons e o ih =>
    intro d k
    have hstep : dictUpdate d (e :: o) = dictUpdate (dictInsert d e.1 e.2) o := rfl
    rw [hstep, ih]
    rw [List.reverse_cons, List.find?_append]
    cases hfind : o.reverse.find? (fun x => x.1 = k) with
    | some w => simp [hfind]
    | none =>
      simp only [hfind, Option.map_none', Option.none_or]
      by_cases hek : e.1 = k
      · subst hek
        rw [lookup_dictInsert_eq]
        simp
      · rw [lookup_dictInsert_ne d e.1 e.2 k (fun h => hek h.symm)]
        simp [hek]

/-- In a dict with pairwise distinct keys the last matching entry is the
only one, so searching the reversal finds the same entry. -/
theorem reverse_find?_of_nodupKeys (o : Palette) (k : String)
    (hnd : (o.map Prod.fst).Nodup) :
    o.reverse.find? (fun e => e.1 = k) = o.find? (fun e => e.1 = k) := by
  induction o with
  | nil => rfl
  | cons e o ih =>
    simp only [List.map_cons, List.nodup_cons] at hnd
    obtain ⟨hnotin, hnd⟩ := hnd
    rw [List.reverse_cons, List.find?_append]
    by_cases hek : e.1 = k
    · have hnone : o.find? (fun x => x.1 = k) = none := by
        rw [List.find?_eq_none]
        intro x hx hp
        refine hnotin (List.mem_map.mpr ⟨x, hx, ?_⟩)
        have hxk : x.1 = k := by simpa using hp
        rw [hxk, hek]
      have hnone' : o.reverse.find? (fun x => x.1 = k) = none := by
        rw [List.find?_eq_none] at hnone ⊢
        intro x hx
        exact hnone x (List.mem_reverse.mp hx)
      rw [hnone', List.find?_cons_of_pos _ (by simp [hek])]
      simp [hek]
    · rw [List.find?_cons_of_neg o (by simp [hek])]
      have h1 : ([e] : Palette).find? (fun x => x.1 = k) = none := by
        simp [hek]
      rw [h1, Option.or_none, ih hnd]

/-- Lookup through one conditional merge stage of `colorpool`. -/
theorem lookup_colorpool_step (b : Bool) (p o : Palette) (k : String)
    (hnd : (o.map Prod.fst).Nodup) :
    lookup (if b = true then dictUpdate p o else p) k =
      (if b = true then lookup o k else none).or (lookup p k) := by
  cases b
  · simp
  · have ht : (true = true) = True := by simp
    simp only [ht, if_true]
    rw [lookup_dictUpdate, reverse_find?_of_nodupKeys o k hnd]
    rfl

/-- The merged `colorpool` resolves a name through the enabled palettes in
reverse merge order: css first, then crayola, xkcd, meodai_best, meodai —
i.e. later-merged palettes overwrite earlier ones on a collision. -/
theorem lookup_colorpool_priority (P : Palettes) (k : String)
    (c1 c2 c3 c4 c5 : Bool)
    (h1 : (P.css.map Prod.fst).Nodup) (h2 : (P.crayola.map Prod.fst).Nodup)
    (h3 : (P.xkcd.map Prod.fst).Nodup)
    (h4 : (P.meodai_best.map Prod.fst).Nodup)
    (h5 : (P.meodai.map Prod.fst).Nodup) :
    lookup (colorpool P c1 c2 c3 c4 c5) k =
      (if c1 = true then lookup P.css k else none).or
        ((if c2 = true then lookup P.crayola k else none).or
          ((if c3 = true then lookup P.xkcd k else none).or
            ((if c4 = true then lookup P.meodai_best k else none).or
              (if c5 = true then lookup P.meodai k else none)))) := by
  simp only [colorpool]
  rw [lookup_colorpool_step c1 _ P.css k h1,
    lookup_colorpool_step c2 _ P.crayola k h2,
    lookup_colorpool_step c3 _ P.xkcd k h3,
    lookup_colorpool_step c4 _ P.meodai_best k h4,
    lookup_colorpool_step c5 _ P.meodai k h5]
  rw [show lookup ([] : Palette) k = none from rfl, Option.or_none]

/-- C5: `parse` fails (raises `NoMatchError`, here `none`) exactly when no
enabled parser succeeds on the input; each individual parser's failure is
swallowed by the fold and never surfaces. -/
theorem parse_none_iff_no_success (P : Palettes) (fl : ParseFlags)
    (colstr : String) :
    parse P fl colstr = none ↔
      (enabledFuncs P fl).filterMap (fun func => func colstr) = [] := by
  rw [parse, foldl_last_success]
  cases hX : (enabledFuncs P fl).filterMap (fun func => func colstr) with
  | nil => simp
  | cons x xs =>
    obtain ⟨w, hw⟩ : ∃ w, (x :: xs).getLast? = some w := by
      cases h : (x :: xs).getLast? with
      | none => exact absurd h (by simp)
      | some w => exact ⟨w, rfl⟩
    simp [hw]

/-! ### Claims about `nearest_named_color` -/

/-- Counterexample to C1 as stated: with the CSS palette holding only
`"red" ↦ "#ff0000"`, querying the exact color (255, 0, 0) returns the pair
`("red", "#ff0000")` — the second component is the stored hex string, not
the decoded `RGBColor` 3-tuple `(255, 0, 0)` that `parse_hex6` would give
(the source returns `near_val`, the raw dict value, decoding only inside
the `min` key). -/
theorem nearest_named_color_returns_undecoded_hex :
    nearest_named_color ⟨[("red", "#ff0000")], [], [], [], []⟩ (255, 0, 0)
        true true true true true = some ("red", "#ff0000") ∧
      parse_hex6 ("#ff0000") = some (255, 0, 0) := ⟨by decide, by decide⟩

/-- C1 (amended): on a non-empty merged pool whose stored values all parse
as hex6, `nearest_named_color` returns a pool entry — the name together
with its *stored hex string* (not the decoded triple) — whose decoded
color minimises the (squared) Euclidean distance to `col` over every
entry of the merged palette. -/
theorem nearest_named_color_min_entry (P : Palettes) (col : RGB)
    (css crayola xkcd meodai_best meodai : Bool)
    (hne : colorpool P css crayola xkcd meodai_best meodai ≠ [])
    (hall : (colorpool P css crayola xkcd meodai_best meodai).all
      (fun e => (parse_hex6 e.2).isSome) = true) :
    ∃ e : String × String,
      nearest_named_color P col css crayola xkcd meodai_best meodai = some e ∧
      e ∈ colorpool P css crayola xkcd meodai_best meodai ∧
      (parse_hex6 e.2).isSome = true ∧
      ∀ x ∈ colorpool P css crayola xkcd meodai_best meodai,
        rough_color_distance col ((parse_hex6 e.2).getD (0, 0, 0)) ≤
          rough_color_distance col ((parse_hex6 x.2).getD (0, 0, 0)) := by
  obtain ⟨e0, es, hpool⟩ : ∃ e0 es,
      colorpool P css crayola xkcd meodai_best meodai = e0 :: es := by
    cases hp : colorpool P css crayola xkcd meodai_best meodai with
    | nil => exact absurd hp hne
    | cons a b => exact ⟨a, b, rfl⟩
  obtain ⟨e, he⟩ : ∃ e, minByKey (nearKey col)
      (colorpool P css crayola xkcd meodai_best meodai) = some e := by
    rw [hpool]
    exact ⟨_, rfl⟩
  obtain ⟨hmem, hmin⟩ := minByKey_min _ _ _ he
  refine ⟨e, ?_, hmem, ?_, ?_⟩
  · show (if (colorpool P css crayola xkcd meodai_best meodai).all
        (fun e => (parse_hex6 e.2).isSome) = true then
        minByKey (nearKey col) (colorpool P css crayola xkcd meodai_best meodai)
      else none) = some e
    rw [if_pos hall]
    exact he
  · have := List.all_eq_true.mp hall e hmem
    simpa using this
  · exact hmin

/-- Witness for the amended C1 at a one-entry CSS palette. -/
theorem nearest_named_color_min_entry_witness :
    ∃ e : String × String,
      nearest_named_color ⟨[("red", "#ff0000")], [], [], [], []⟩ (0, 0, 0)
          true true true true true = some e ∧
      e ∈ colorpool ⟨[("red", "#ff0000")], [], [], [], []⟩
          true true true true true ∧
      (parse_hex6 e.2).isSome = true ∧
      ∀ x ∈ colorpool ⟨[("red", "#ff0000")], [], [], [], []⟩
          true true true true true,
        rough_color_distance (0, 0, 0) ((parse_hex6 e.2).getD (0, 0, 0)) ≤
          rough_color_distance (0, 0, 0) ((parse_hex6 x.2).getD (0, 0, 0)) :=
  nearest_named_color_min_entry ⟨[("red", "#ff0000")], [], [], [], []⟩
    (0, 0, 0) true true true true true (by decide) (by decide)

/-- C6: (i) with every palette enabled, a name resolves through the merged
pool in priority order — css overrides crayola overrides xkcd overrides
meodai_best overrides meodai, i.e. each later-merged palette's value
overwrites an earlier one's on a collision; (ii) the entry returned by
`nearest_named_color` strictly beats every entry before it in the merged
pool's iteration order, so on equal minimal distance the first entry
encountered wins. -/
theorem colorpool_merge_order_and_tie_break :
    (∀ P : Palettes, ∀ k : String, ∀ c1 c2 c3 c4 c5 : Bool,
      (P.css.map Prod.fst).Nodup → (P.crayola.map Prod.fst).Nodup →
      (P.xkcd.map Prod.fst).Nodup → (P.meodai_best.map Prod.fst).Nodup →
      (P.meodai.map Prod.fst).Nodup →
      lookup (colorpool P c1 c2 c3 c4 c5) k =
        (if c1 = true then lookup P.css k else none).or
          ((if c2 = true then lookup P.crayola k else none).or
            ((if c3 = true then lookup P.xkcd k else none).or
              ((if c4 = true then lookup P.meodai_best k else none).or
                (if c5 = true then lookup P.meodai k else none))))) ∧
    (∀ P : Palettes, ∀ col : RGB, ∀ css crayola xkcd meodai_best meodai : Bool,
      ∀ e : String × String,
      nearest_named_color P col css crayola xkcd meodai_best meodai = some e →
      ∃ l1 l2,
        colorpool P css crayola xkcd meodai_best meodai = l1 ++ e :: l2 ∧
        (∀ x ∈ l1, nearKey col e < nearKey col x) ∧
        (∀ x ∈ l2, nearKey col e ≤ nearKey col x)) := by
  constructor
  · exact lookup_colorpool_priority
  · intro P col c1 c2 c3 c4 c5 e h
    unfold nearest_named_color at h
    by_cases hall : (colorpool P c1 c2 c3 c4 c5).all
        (fun e => (parse_hex6 e.2).isSome) = true
    · rw [if_pos hall] at h
      exact minByKey_split (nearKey col) _ e h
    · rw [if_neg hall] at h
      exact absurd h (by simp)

/-- Witness for C6: (i) "red" present in both css and crayola resolves to
the css value; (ii) two meodai entries at the same distance from black —
the first one in the merged pool is returned. -/
theorem colorpool_merge_order_and_tie_break_witness :
    (lookup (colorpool ⟨[("red", "#ff0000")], [("red", "#ee0000")], [], [], []⟩
        true true true true true) ("red") =
      (if true = true then lookup [("red", "#ff0000")] ("red") else none).or
        ((if true = true then lookup [("red", "#ee0000")] ("red") else none).or
          ((if true = true then lookup [] ("red") else none).or
            ((if true = true then lookup [] ("red") else none).or
              (if true = true then lookup [] ("red") else none))))) ∧
    (∃ l1 l2,
      colorpool ⟨[], [], [], [], [("a", "#000000"), ("b", "#000000")]⟩
          true true true true true = l1 ++ ("a", "#000000") :: l2 ∧
      (∀ x ∈ l1, nearKey (0, 0, 0) ("a", "#000000") < nearKey (0, 0, 0) x) ∧
      (∀ x ∈ l2, nearKey (0, 0, 0) ("a", "#000000") ≤ nearKey (0, 0, 0) x)) :=
  ⟨colorpool_merge_order_and_tie_break.1
      ⟨[("red", "#ff0000")], [("red", "#ee0000")], [], [], []⟩ ("red")
      true true true true true
      (by decide) (by decide) (by decide) (by decide) (by decide),
    colorpool_merge_order_and_tie_break.2
      ⟨[], [], [], [], [("a", "#000000"), ("b", "#000000")]⟩ (0, 0, 0)
      true true true true true ("a", "#000000") (by decide)⟩

end Pilutils

